import Mathlib

/-!
Verification of the Videoflix backend media core: the secure HLS path
resolution (`videos/views.py`), the serving views, the transcode pipeline
(`videos/tasks.py`) and the enqueue signal handler (`videos/signals.py`),
shallowly embedded in Lean 4.

Paths are modelled as plain strings with POSIX separators; the Python
`os.path` primitives used by the code (`join`, `normpath`, `str.startswith`,
`str.endswith`, `str.split`) are embedded faithfully below.
-/

set_option linter.unusedVariables false

namespace Videoflix

/-! ## POSIX path primitives (as used by Python os.path on a POSIX system) -/

/-- Python `str.startswith(pre)`: `pre` is a prefix of `s`. -/
def strStartsWith (s pre : String) : Bool :=
  pre.data.isPrefixOf s.data

/-- Python `str.endswith(suf)`: `suf` is a suffix of `s`. -/
def strEndsWith (s suf : String) : Bool :=
  suf.data.isSuffixOf s.data

/-- Auxiliary splitter over the character list. -/
def splitAux (sep : Char) : List Char → List Char → List String
  | [], cur => [String.mk cur.reverse]
  | c :: cs, cur =>
    if c = sep then String.mk cur.reverse :: splitAux sep cs []
    else splitAux sep cs (c :: cur)

/-- Python `s.split(sep)` for a one-character separator
(`"".split("/") == [""]`, `"/a".split("/") == ["", "a"]`). -/
def splitOnChar (sep : Char) (s : String) : List String :=
  splitAux sep s.data []

/-- Python `"/".join(comps)`. -/
def joinComps : List String → String
  | [] => ""
  | [x] => x
  | x :: y :: rest => x ++ "/" ++ joinComps (y :: rest)

/-- Python `os.path.join(a, b)` on POSIX: an absolute `b` discards `a`;
otherwise a single separator is inserted unless `a` is empty or already
ends with one. -/
def osJoin (a b : String) : String :=
  if strStartsWith b "/" then b
  else if a = "" ∨ strEndsWith a "/" then a ++ b
  else a ++ "/" ++ b

/-- One step of CPython `posixpath.normpath`'s component loop: `new_comps`
is kept reversed (its head is Python's `new_comps[-1]`). -/
def normCompsAux (initSlashes : Bool) : List String → List String → List String
  | [], acc => acc.reverse
  | c :: rest, acc =>
    if c = "" ∨ c = "." then
      normCompsAux initSlashes rest acc
    else if c ≠ ".." ∨ (initSlashes = false ∧ acc = []) ∨ acc.head? = some ".." then
      normCompsAux initSlashes rest (c :: acc)
    else
      match acc with
      | [] => normCompsAux initSlashes rest []
      | _ :: acc2 => normCompsAux initSlashes rest acc2

/-- CPython `posixpath.normpath`: collapse `.`, `..` and duplicate
separators; empty input becomes `"."`; one or two leading slashes are
preserved (three or more collapse to one). -/
def normpath (p : String) : String :=
  if p = "" then "."
  else
    let initSlashes : Nat :=
      if strStartsWith p "/" then
        if strStartsWith p "//" ∧ ¬ strStartsWith p "///" then 2 else 1
      else 0
    let comps := normCompsAux (initSlashes != 0) (splitOnChar '/' p) []
    let res := String.mk (List.replicate initSlashes '/') ++ joinComps comps
    if res = "" then "." else res

/-! ## Resolution aliasing and secure path resolution (videos/views.py) -/

/-- `RESOLUTION_MAP` from `videos/views.py`: client-facing labels mapped to
stored variant directory names. -/
def RESOLUTION_MAP : List (String × String) :=
  [("480p", "360p"), ("360p", "360p"), ("720p", "720p"), ("1080p", "1080p")]

/-- `_normalize_resolution`: dictionary lookup in `RESOLUTION_MAP`; the
code raises `Http404` (here: `none`) when the lookup misses (the falsy
check `if not norm` also catches an empty value). -/
def normalizeResolution (requestedResolution : String) : Option String :=
  match (RESOLUTION_MAP.find? (fun kv => kv.1 == requestedResolution)).map (fun kv => kv.2) with
  | none => none
  | some v => if v = "" then none else some v

/-- The `base` directory composed by `safe_hls_path`:
`os.path.join(MEDIA_ROOT, "hls", str(video_id), real_resolution)`. -/
def hlsBase (root : String) (videoId : Nat) (realRes : String) : String :=
  osJoin (osJoin (osJoin root "hls") (toString videoId)) realRes

/-- `safe_hls_path(video_id, resolution, filename)` from `videos/views.py`:
map the resolution, join the filename onto the base, `normpath` the result
and require that it starts (as a string) with `normpath(base)`; `Http404`
is modelled as `none`. `root` is `settings.MEDIA_ROOT`. -/
def safe_hls_path (root : String) (videoId : Nat) (resolution filename : String) : Option String :=
  match normalizeResolution resolution with
  | none => none
  | some realRes =>
    if strStartsWith (normpath (osJoin (hlsBase root videoId realRes) filename))
        (normpath (hlsBase root videoId realRes)) then
      some (normpath (osJoin (hlsBase root videoId realRes) filename))
    else
      none

/-- Does a string contain the POSIX directory separator? -/
def hasSep (s : String) : Bool :=
  s.data.contains '/'

example : normpath "/media/hls/1/360p/../360p-evil/x" = "/media/hls/1/360p-evil/x" := by decide
example : normpath "" = "." := by decide
example : normpath "/a/b/../../../c" = "/c" := by decide
example : osJoin "/media" "hls" = "/media/hls" := by decide
example : safe_hls_path "/media" 1 "480p" "index.m3u8" = some "/media/hls/1/360p/index.m3u8" := by decide
example : safe_hls_path "/media" 1 "240p" "index.m3u8" = none := by decide
example : safe_hls_path "/media" 10 "480p" "../../../secret.txt" = none := by decide

/-! ## The Video record (videos/models.py) -/

/-- The `Video` model fields the core reads and writes. `videoFile` and
`thumbnail` are the storage names of the attached files (`none` models an
empty/absent `FileField`, which is falsy in Python). -/
structure VideoRec where
  id : Nat
  videoFile : Option String
  thumbnail : Option String
  hls_dir : String
  processed : Bool
deriving DecidableEq, Repr

/-! ## Serving views (videos/views.py) -/

/-- Outcome of an HLS serving view: `Http404` or a `FileResponse`
streaming `path` with the given content type. -/
inductive ServeResult where
  | notFound
  | fileResponse (path contentType : String)
deriving DecidableEq, Repr

/-- `hls_manifest_view(request, movie_id, resolution)`: resolve
`index.m3u8` through `safe_hls_path`, 404 when the file is absent from
the filesystem `fs` (modelled as the set of existing file paths).
The view has the metadata store `db` in scope (the `Video` model) but the
source never queries it on this path; the parameter records that. -/
def hls_manifest_view (root : String) (fs : List String) (db : List VideoRec)
    (movieId : Nat) (resolution : String) : ServeResult :=
  match safe_hls_path root movieId resolution "index.m3u8" with
  | none => ServeResult.notFound
  | some path =>
    if fs.contains path then ServeResult.fileResponse path "application/vnd.apple.mpegurl"
    else ServeResult.notFound

/-- `hls_segment_view(request, movie_id, resolution, segment)`: same
resolution and containment logic, content type `video/MP2T`. -/
def hls_segment_view (root : String) (fs : List String) (db : List VideoRec)
    (movieId : Nat) (resolution segment : String) : ServeResult :=
  match safe_hls_path root movieId resolution segment with
  | none => ServeResult.notFound
  | some path =>
    if fs.contains path then ServeResult.fileResponse path "video/MP2T"
    else ServeResult.notFound

/-! ## Signal handler (videos/signals.py) -/

/-- `enqueue_transcode(sender, instance, created, ...)`: the list of jobs
handed to `django_rq.enqueue` by one `post_save` delivery (each job is a
dotted function path and the record's primary key). -/
def enqueue_transcode (created : Bool) (v : VideoRec) : List (String × Nat) :=
  if created = true ∧ v.videoFile.isSome = true ∧ v.processed = false then
    [("videos.tasks.transcode_video", v.id)]
  else []

/-! ## Transcode pipeline (videos/tasks.py) -/

/-- Observable effects of one `transcode_video` run, in program order.
`lockAcquire`/`lockRelease` are the row lock taken by
`select_for_update()` inside the `@transaction.atomic` block and its
release when the transaction ends. -/
inductive Event where
  | lockAcquire (videoId : Nat)
  | mkdir (path : String)
  | subprocess (cmd : List String)
  | save (rec : VideoRec) (updateFields : List String)
  | lockRelease (videoId : Nat)
deriving DecidableEq, Repr

/-- The environment the pipeline runs against: `run cmd` is the success of
`subprocess.run(cmd, check=True)` (`false` models a `CalledProcessError`),
`fileExists` is `Path.exists` after the commands so far have run. -/
structure Env where
  run : List String → Bool
  fileExists : String → Bool

/-- Outcome of one `transcode_video` call: `ok` for a normal return,
`err c` for the `CalledProcessError` raised by `run(c)` propagating to
the job runner. -/
inductive Outcome where
  | ok
  | err (cmd : List String)
deriving DecidableEq, Repr

/-- Result of one `transcode_video(video_id)` call: the effect trace and
the committed state of the record (unchanged when the transaction rolled
back). -/
structure RunResult where
  trace : List Event
  dbRec : VideoRec
  outcome : Outcome
deriving DecidableEq, Repr

/-- `out_base = Path(settings.MEDIA_ROOT) / "hls" / str(video.id)`. -/
def outBaseDir (root : String) (videoId : Nat) : String :=
  root ++ "/hls/" ++ toString videoId

/-- The ffmpeg command built for one ladder variant in `transcode_video`
(`outDir` is the variant directory returned by `m3u8_target_dir`). -/
def ffmpegCmd (inputPath : String) (height : Nat) (vb : String) (outDir : String) : List String :=
  ["ffmpeg", "-y",
   "-i", inputPath,
   "-vf", "scale=-2:" ++ toString height,
   "-c:v", "libx264",
   "-preset", "veryfast",
   "-c:a", "aac", "-ar", "48000", "-b:a", "128k",
   "-b:v", vb,
   "-hls_time", "4",
   "-hls_playlist_type", "vod",
   "-hls_segment_filename", outDir ++ "/%03d.ts",
   outDir ++ "/index.m3u8"]

/-- The `variants` table of `transcode_video`, in insertion order. -/
def variants : List (String × Nat × String) :=
  [("360p", 360, "800k"), ("720p", 720, "2500k"), ("1080p", 1080, "4500k")]

/-- The thumbnail extraction command
(`ffmpeg -y -ss 3 -i input -frames:v 1 out_base/thumb.jpg`). -/
def thumbCmd (inputPath outBase : String) : List String :=
  ["ffmpeg", "-y", "-ss", "3", "-i", inputPath, "-frames:v", "1", outBase ++ "/thumb.jpg"]

/-- The `for res, cfg in variants.items()` loop: create the variant
directory (`m3u8_target_dir`), run the encoder; a failure aborts the loop
and reports the failing command. -/
def runLadder (env : Env) (inputPath outBase : String) :
    List (String × Nat × String) → List Event → List Event × Option (List String)
  | [], evs => (evs, none)
  | (res, hgt, vb) :: rest, evs =>
    if env.run (ffmpegCmd inputPath hgt vb (outBase ++ "/" ++ res)) then
      runLadder env inputPath outBase rest
        (evs ++ [Event.mkdir (outBase ++ "/" ++ res),
                 Event.subprocess (ffmpegCmd inputPath hgt vb (outBase ++ "/" ++ res))])
    else
      (evs ++ [Event.mkdir (outBase ++ "/" ++ res),
               Event.subprocess (ffmpegCmd inputPath hgt vb (outBase ++ "/" ++ res))],
       some (ffmpegCmd inputPath hgt vb (outBase ++ "/" ++ res)))

/-- The record as saved by a completed run: `hls_dir = "hls/<id>"`,
`processed = True`, and the thumbnail attached (stored under its
`upload_to` name) only when `thumb_path.exists()`. -/
def completedRec (env : Env) (root : String) (v : VideoRec) : VideoRec :=
  { v with
    hls_dir := "hls/" ++ toString v.id,
    thumbnail :=
      if env.fileExists (outBaseDir root v.id ++ "/thumb.jpg") then
        some ("thumb_" ++ toString v.id ++ ".jpg")
      else v.thumbnail,
    processed := true }

/-- Continuation of `transcode_video` after the encoder loop: a ladder
failure propagates (rollback); otherwise the thumbnail subprocess runs
(`check=True`, so its failure also propagates) and the single
`save(update_fields=...)` commits the completed record. -/
def afterLadder (env : Env) (root : String) (v : VideoRec) (inputPath : String)
    (lr : List Event × Option (List String)) : List Event × VideoRec × Outcome :=
  match lr with
  | (evs, some cmd) => (evs, v, Outcome.err cmd)
  | (evs, none) =>
    if env.run (thumbCmd inputPath (outBaseDir root v.id)) then
      (evs ++ [Event.subprocess (thumbCmd inputPath (outBaseDir root v.id)),
               Event.save (completedRec env root v) ["hls_dir", "thumbnail", "processed"]],
       completedRec env root v, Outcome.ok)
    else
      (evs ++ [Event.subprocess (thumbCmd inputPath (outBaseDir root v.id))],
       v, Outcome.err (thumbCmd inputPath (outBaseDir root v.id)))

/-- Body of `transcode_video` between lock acquisition and transaction
end: the guard on `video.video_file`, `out_base.mkdir`, the encoder loop,
the thumbnail extraction and the single `save(update_fields=...)`. -/
def transcodeBody (env : Env) (root : String) (v : VideoRec) :
    List Event × VideoRec × Outcome :=
  match v.videoFile with
  | none => ([], v, Outcome.ok)
  | some inputPath =>
    afterLadder env root v inputPath
      (runLadder env inputPath (outBaseDir root v.id) variants
        [Event.mkdir (outBaseDir root v.id)])

/-- `transcode_video(video_id)`: `@transaction.atomic` with
`select_for_update()` first — the row lock wraps the whole body, and a
propagating error rolls the transaction back (the record keeps its
pre-run state). -/
def transcode_video (env : Env) (root : String) (v : VideoRec) : RunResult :=
  { trace := Event.lockAcquire v.id :: (transcodeBody env root v).1 ++ [Event.lockRelease v.id],
    dbRec := (transcodeBody env root v).2.1,
    outcome := (transcodeBody env root v).2.2 }

/-! ## Fixed inputs used by counterexamples and witnesses -/

/-- A freshly uploaded record with a source file. -/
def sampleVideo : VideoRec :=
  { id := 1, videoFile := some "/media/videos/original/a.mp4",
    thumbnail := none, hls_dir := "", processed := false }

/-- A record without a source file. -/
def noFileVideo : VideoRec :=
  { id := 2, videoFile := none, thumbnail := none, hls_dir := "", processed := false }

/-- Environment where every subprocess succeeds and every file exists. -/
def envAll : Env := { run := fun _ => true, fileExists := fun _ => true }

/-- Environment where every subprocess fails. -/
def envNone : Env := { run := fun _ => false, fileExists := fun _ => false }

/-- Environment where the ladder encodes succeed but the thumbnail
extraction subprocess (recognisable by its `-frames:v` flag) fails. -/
def thumbFailEnv : Env :=
  { run := fun cmd => !(cmd.contains "-frames:v"), fileExists := fun _ => false }

example : (transcode_video envAll "/media" sampleVideo).outcome = Outcome.ok := by decide
example : (transcode_video envAll "/media" sampleVideo).dbRec.processed = true := by decide
example : (transcode_video thumbFailEnv "/media" sampleVideo).dbRec = sampleVideo := by decide
example : (transcode_video envNone "/media" sampleVideo).outcome =
    Outcome.err (ffmpegCmd "/media/videos/original/a.mp4" 360 "800k" "/media/hls/1/360p") := by decide
example : (transcode_video envAll "/media" noFileVideo).trace =
    [Event.lockAcquire 2, Event.lockRelease 2] := by decide

/-! ## Helper lemmas on strings -/

lemma data_append (a b : String) : (a ++ b).data = a.data ++ b.data := by
  cases a; cases b; rfl

lemma str_append_assoc (a b c : String) : (a ++ b) ++ c = a ++ (b ++ c) := by
  cases a with | mk la =>
  cases b with | mk lb =>
  cases c with | mk lc =>
  exact congrArg String.mk (List.append_assoc la lb lc)

lemma str_append_left_cancel {a b c : String} (h : a ++ b = a ++ c) : b = c := by
  have h2 : a.data ++ b.data = a.data ++ c.data := by
    rw [← data_append, ← data_append, h]
  have h3 : b.data = c.data := List.append_cancel_left h2
  cases b with | mk lb =>
  cases c with | mk lc =>
  exact congrArg String.mk h3

lemma str_ne_append {a b : String} (hb : b.data ≠ []) : a ≠ a ++ b := by
  intro h
  have h2 : a.data = a.data ++ b.data := by
    rw [← data_append, ← h]
  have h3 := congrArg List.length h2
  rw [List.length_append] at h3
  have h4 : b.data.length = 0 := by omega
  exact hb (List.length_eq_zero.mp h4)

/-! ## Claim theorems -/

/-- Claim C1 counterexample: the containment check in `safe_hls_path`
compares string prefixes without a trailing separator, so the filename
`"../360p-evil/x"` against the variant directory `/media/hls/1/360p`
resolves successfully to a path in the sibling directory
`/media/hls/1/360p-evil`, which is not strictly inside the variant
directory — refuting the claim as stated. -/
theorem c1_sibling_prefix_escape :
    safe_hls_path "/media" 1 "360p" "../360p-evil/x" = some "/media/hls/1/360p-evil/x" ∧
    strStartsWith "/media/hls/1/360p-evil/x" ("/media/hls/1/360p" ++ "/") = false := by
  decide

/-- Claim C1 (amended): `safe_hls_path` either fails with NotFound or
returns a path whose canonical form extends the canonical variant base
directory as a *string* prefix; because the check lacks a trailing
separator this permits paths inside sibling directories whose names share
the variant directory name as a prefix. -/
theorem c1_resolve_string_prefix_containment (root : String) (videoId : Nat)
    (resolution filename p : String)
    (h : safe_hls_path root videoId resolution filename = some p) :
    ∃ realRes, normalizeResolution resolution = some realRes ∧
      strStartsWith p (normpath (hlsBase root videoId realRes)) = true := by
  unfold safe_hls_path at h
  cases hres : normalizeResolution resolution with
  | none => rw [hres] at h; exact absurd h (by simp)
  | some realRes =>
    rw [hres] at h
    refine ⟨realRes, rfl, ?_⟩
    have h' : (if strStartsWith (normpath (osJoin (hlsBase root videoId realRes) filename))
        (normpath (hlsBase root videoId realRes)) = true then
        some (normpath (osJoin (hlsBase root videoId realRes) filename)) else none) = some p := h
    by_cases hsw : strStartsWith (normpath (osJoin (hlsBase root videoId realRes) filename))
        (normpath (hlsBase root videoId realRes)) = true
    · rw [if_pos hsw] at h'
      injection h' with h2
      rw [← h2]
      exact hsw
    · rw [if_neg hsw] at h'
      exact absurd h' (by simp)

/-- Claim C1 witness: the amended containment theorem applied at a
concrete resolved manifest path. -/
theorem c1_containment_witness :
    ∃ realRes, normalizeResolution "480p" = some realRes ∧
      strStartsWith "/media/hls/1/360p/index.m3u8" (normpath (hlsBase "/media" 1 realRes)) = true :=
  c1_resolve_string_prefix_containment "/media" 1 "480p" "index.m3u8"
    "/media/hls/1/360p/index.m3u8" (by decide)

/-- Claim C3 counterexample: `safe_hls_path` does not reject filenames
containing a directory separator before composing the candidate path; the
separator-containing filename `"sub/seg.ts"` is joined into the path and
even resolves successfully. -/
theorem c3_separator_filename_composed :
    hasSep "sub/seg.ts" = true ∧
    safe_hls_path "/media" 1 "360p" "sub/seg.ts" = some "/media/hls/1/360p/sub/seg.ts" := by
  decide

/-- Claim C3 (amended): `safe_hls_path` applies no pre-composition
filename filter: whenever the resolution maps and the composed,
normalized path passes the string-prefix boundary check, the resolution
succeeds — regardless of separators in the filename. -/
theorem c3_boundary_check_only (root : String) (videoId : Nat)
    (resolution filename realRes : String)
    (hres : normalizeResolution resolution = some realRes)
    (hchk : strStartsWith (normpath (osJoin (hlsBase root videoId realRes) filename))
        (normpath (hlsBase root videoId realRes)) = true) :
    safe_hls_path root videoId resolution filename =
      some (normpath (osJoin (hlsBase root videoId realRes) filename)) := by
  unfold safe_hls_path
  rw [hres]
  show (if strStartsWith (normpath (osJoin (hlsBase root videoId realRes) filename))
      (normpath (hlsBase root videoId realRes)) = true then
      some (normpath (osJoin (hlsBase root videoId realRes) filename)) else none) =
    some (normpath (osJoin (hlsBase root videoId realRes) filename))
  rw [if_pos hchk]

/-- Claim C3 witness: the amended theorem applied to a separator-containing
filename, which the code happily composes and accepts. -/
theorem c3_boundary_check_only_witness :
    safe_hls_path "/media" 1 "360p" "sub/seg.ts" =
      some (normpath (osJoin (hlsBase "/media" 1 "360p") "sub/seg.ts")) :=
  c3_boundary_check_only "/media" 1 "360p" "sub/seg.ts" "360p" (by decide) (by decide)

/-- Claim C5: one `post_save` delivery enqueues exactly the single job
`("videos.tasks.transcode_video", id)` iff the record was newly created,
has a source file, and is not yet processed; in every other case it
enqueues nothing. -/
theorem c5_enqueue_iff (created : Bool) (v : VideoRec) :
    (enqueue_transcode created v = [("videos.tasks.transcode_video", v.id)] ↔
      created = true ∧ v.videoFile.isSome = true ∧ v.processed = false) ∧
    (enqueue_transcode created v = [] ↔
      ¬ (created = true ∧ v.videoFile.isSome = true ∧ v.processed = false)) := by
  by_cases h : created = true ∧ v.videoFile.isSome = true ∧ v.processed = false
  · simp [enqueue_transcode, h]
  · simp [enqueue_transcode, h]

/-- Claim C5 witness: a newly created, unprocessed record with a source
file enqueues exactly one transcode job. -/
theorem c5_enqueue_witness :
    enqueue_transcode true sampleVideo = [("videos.tasks.transcode_video", 1)] :=
  (c5_enqueue_iff true sampleVideo).1.mpr (by decide)

/-- Claim C7: the serving views never consult the metadata store (their
result is identical for any two database states), and once the path
resolves they return NotFound exactly when the resolved file is absent
from the storage medium. -/
theorem c7_serve_independent_of_db (root : String) (fs : List String)
    (db db2 : List VideoRec) (movieId : Nat) (resolution segment : String) :
    hls_manifest_view root fs db movieId resolution =
      hls_manifest_view root fs db2 movieId resolution ∧
    hls_segment_view root fs db movieId resolution segment =
      hls_segment_view root fs db2 movieId resolution segment ∧
    (∀ p, safe_hls_path root movieId resolution "index.m3u8" = some p →
      (hls_manifest_view root fs db movieId resolution = ServeResult.notFound ↔
        fs.contains p = false)) ∧
    (∀ p, safe_hls_path root movieId resolution segment = some p →
      (hls_segment_view root fs db movieId resolution segment = ServeResult.notFound ↔
        fs.contains p = false)) := by
  refine ⟨rfl, rfl, ?_, ?_⟩
  · intro p hp
    unfold hls_manifest_view
    rw [hp]
    cases hc : fs.contains p <;> simp [hc] <;> simpa using hc
  · intro p hp
    unfold hls_segment_view
    rw [hp]
    cases hc : fs.contains p <;> simp [hc] <;> simpa using hc

/-- Claim C7 witness: with the manifest present on disk and an empty
metadata store, the view's NotFound outcome is equivalent to the file's
absence (both false here). -/
theorem c7_serve_witness :
    hls_manifest_view "/media" ["/media/hls/1/360p/index.m3u8"] [] 1 "480p" = ServeResult.notFound ↔
      List.contains ["/media/hls/1/360p/index.m3u8"] "/media/hls/1/360p/index.m3u8" = false :=
  (c7_serve_independent_of_db "/media" ["/media/hls/1/360p/index.m3u8"] [] [sampleVideo]
      1 "480p" "000.ts").2.2.1 "/media/hls/1/360p/index.m3u8" (by decide)

/-- Environment where every subprocess succeeds but the extracted
thumbnail file is missing afterwards. -/
def envThumbGone : Env := { run := fun _ => true, fileExists := fun _ => false }

/-- Claim C2 counterexample: with every ladder encode succeeding and the
thumbnail subprocess exiting non-zero, `transcode_video` does NOT
complete: the `CalledProcessError` of the thumbnail command propagates
(the `run` helper is `check=True` and the call is not wrapped in
try/except), the transaction rolls back, and the record keeps
`processed = False` with `hls_dir` unset — refuting the claim that
thumbnail failure never aborts the run. -/
theorem c2_thumbnail_failure_aborts_run :
    thumbFailEnv.run (ffmpegCmd "/media/videos/original/a.mp4" 360 "800k" "/media/hls/1/360p") = true ∧
    thumbFailEnv.run (ffmpegCmd "/media/videos/original/a.mp4" 720 "2500k" "/media/hls/1/720p") = true ∧
    thumbFailEnv.run (ffmpegCmd "/media/videos/original/a.mp4" 1080 "4500k" "/media/hls/1/1080p") = true ∧
    thumbFailEnv.run (thumbCmd "/media/videos/original/a.mp4" "/media/hls/1") = false ∧
    (transcode_video thumbFailEnv "/media" sampleVideo).outcome =
      Outcome.err (thumbCmd "/media/videos/original/a.mp4" "/media/hls/1") ∧
    (transcode_video thumbFailEnv "/media" sampleVideo).dbRec = sampleVideo := by
  decide

/-- Claim C2 (amended): after a fully successful encoder ladder, a
non-zero exit of the thumbnail subprocess aborts the run (the error
propagates, the record stays untouched, `processed` remains false);
the run survives a thumbnail failure only in the narrower sense that the
subprocess exits zero without producing the file, in which case
`processed` becomes true, `hls_dir` is set and the thumbnail field is
left as it was. -/
theorem c2_thumbnail_semantics (env : Env) (root : String) (v : VideoRec)
    (inputPath : String) (hfile : v.videoFile = some inputPath)
    (h1 : env.run (ffmpegCmd inputPath 360 "800k" (outBaseDir root v.id ++ "/" ++ "360p")) = true)
    (h2 : env.run (ffmpegCmd inputPath 720 "2500k" (outBaseDir root v.id ++ "/" ++ "720p")) = true)
    (h3 : env.run (ffmpegCmd inputPath 1080 "4500k" (outBaseDir root v.id ++ "/" ++ "1080p")) = true) :
    (env.run (thumbCmd inputPath (outBaseDir root v.id)) = false →
      (transcode_video env root v).outcome = Outcome.err (thumbCmd inputPath (outBaseDir root v.id)) ∧
      (transcode_video env root v).dbRec = v) ∧
    (env.run (thumbCmd inputPath (outBaseDir root v.id)) = true →
      env.fileExists (outBaseDir root v.id ++ "/thumb.jpg") = false →
      (transcode_video env root v).outcome = Outcome.ok ∧
      (transcode_video env root v).dbRec =
        { v with hls_dir := "hls/" ++ toString v.id, processed := true }) := by
  constructor
  · intro ht
    constructor <;>
      simp [transcode_video, transcodeBody, afterLadder, hfile, runLadder, variants, h1, h2, h3, ht]
  · intro ht hex
    constructor <;>
      simp [transcode_video, transcodeBody, afterLadder, hfile, runLadder, variants, h1, h2, h3, ht,
        completedRec, hex]

/-- Claim C2 witness: both amended branches at concrete inputs — the
thumbnail subprocess failing aborts and leaves the record unchanged; the
subprocess succeeding with the file missing completes the run. -/
theorem c2_thumbnail_semantics_witness :
    ((transcode_video thumbFailEnv "/media" sampleVideo).dbRec = sampleVideo) ∧
    ((transcode_video envThumbGone "/media" sampleVideo).outcome = Outcome.ok) :=
  ⟨((c2_thumbnail_semantics thumbFailEnv "/media" sampleVideo "/media/videos/original/a.mp4"
      rfl (by decide) (by decide) (by decide)).1 (by decide)).2,
   ((c2_thumbnail_semantics envThumbGone "/media" sampleVideo "/media/videos/original/a.mp4"
      rfl rfl rfl rfl).2 rfl rfl).1⟩

/-- Claim C4: if the encoder subprocess exits non-zero on any variant of
the ladder (first failure at 360p, 720p or 1080p), the error propagates
out of `transcode_video` and the committed record is exactly the pre-run
record — no partial state, `processed` stays false, `hls_dir` stays
unset. -/
theorem c4_encoder_failure_no_partial_state (env : Env) (root : String) (v : VideoRec)
    (inputPath : String) (hfile : v.videoFile = some inputPath) :
    (env.run (ffmpegCmd inputPath 360 "800k" (outBaseDir root v.id ++ "/" ++ "360p")) = false →
      (transcode_video env root v).outcome =
        Outcome.err (ffmpegCmd inputPath 360 "800k" (outBaseDir root v.id ++ "/" ++ "360p")) ∧
      (transcode_video env root v).dbRec = v) ∧
    (env.run (ffmpegCmd inputPath 360 "800k" (outBaseDir root v.id ++ "/" ++ "360p")) = true →
     env.run (ffmpegCmd inputPath 720 "2500k" (outBaseDir root v.id ++ "/" ++ "720p")) = false →
      (transcode_video env root v).outcome =
        Outcome.err (ffmpegCmd inputPath 720 "2500k" (outBaseDir root v.id ++ "/" ++ "720p")) ∧
      (transcode_video env root v).dbRec = v) ∧
    (env.run (ffmpegCmd inputPath 360 "800k" (outBaseDir root v.id ++ "/" ++ "360p")) = true →
     env.run (ffmpegCmd inputPath 720 "2500k" (outBaseDir root v.id ++ "/" ++ "720p")) = true →
     env.run (ffmpegCmd inputPath 1080 "4500k" (outBaseDir root v.id ++ "/" ++ "1080p")) = false →
      (transcode_video env root v).outcome =
        Outcome.err (ffmpegCmd inputPath 1080 "4500k" (outBaseDir root v.id ++ "/" ++ "1080p")) ∧
      (transcode_video env root v).dbRec = v) := by
  refine ⟨fun hf1 => ?_, fun hs1 hf2 => ?_, fun hs1 hs2 hf3 => ?_⟩
  · constructor <;> simp [transcode_video, transcodeBody, afterLadder, hfile, runLadder, variants, hf1]
  · constructor <;> simp [transcode_video, transcodeBody, afterLadder, hfile, runLadder, variants, hs1, hf2]
  · constructor <;>
      simp [transcode_video, transcodeBody, afterLadder, hfile, runLadder, variants, hs1, hs2, hf3]

/-- Claim C4 witness: with an environment where every subprocess fails,
the run fails on the first (360p) encode and commits nothing. -/
theorem c4_encoder_failure_witness :
    (transcode_video envNone "/media" sampleVideo).outcome =
      Outcome.err (ffmpegCmd "/media/videos/original/a.mp4" 360 "800k" "/media/hls/1/360p") ∧
    (transcode_video envNone "/media" sampleVideo).dbRec = sampleVideo :=
  (c4_encoder_failure_no_partial_state envNone "/media" sampleVideo
    "/media/videos/original/a.mp4" rfl).1 rfl

/-- Claim C6: on a record with no source file, `transcode_video` returns
normally right after the guard — the trace holds only the lock acquire
and release, so no subprocess ran, no directory was created, nothing was
saved, and the committed record equals the input record. -/
theorem c6_no_source_noop (env : Env) (root : String) (v : VideoRec)
    (hfile : v.videoFile = none) :
    transcode_video env root v =
      { trace := [Event.lockAcquire v.id, Event.lockRelease v.id],
        dbRec := v, outcome := Outcome.ok } ∧
    ∀ e ∈ (transcode_video env root v).trace,
      (∀ c, e ≠ Event.subprocess c) ∧ (∀ p, e ≠ Event.mkdir p) ∧
      (∀ r fl, e ≠ Event.save r fl) := by
  have hb : transcodeBody env root v = ([], v, Outcome.ok) := by
    unfold transcodeBody
    rw [hfile]
  constructor
  · simp [transcode_video, hb]
  · intro e he
    have ht : (transcode_video env root v).trace =
        [Event.lockAcquire v.id, Event.lockRelease v.id] := by
      simp [transcode_video, hb]
    rw [ht] at he
    simp only [List.mem_cons, List.not_mem_nil, or_false] at he
    rcases he with he | he <;> subst he <;>
      exact ⟨fun c h => (nomatch h), fun p h => (nomatch h), fun r fl h => (nomatch h)⟩

/-- Claim C6 witness: the no-op run on a concrete record without a source
file. -/
theorem c6_no_source_noop_witness :
    transcode_video envAll "/media" noFileVideo =
      { trace := [Event.lockAcquire 2, Event.lockRelease 2],
        dbRec := noFileVideo, outcome := Outcome.ok } :=
  (c6_no_source_noop envAll "/media" noFileVideo rfl).1

/-- Claim C9: a fully successful run invokes the encoder once per variant
in ladder order 360p@800k, 720p@2500k, 1080p@4500k (each command carrying
4-second segments, VOD playlist type, `scale=-2:<height>` even-width
scaling, AAC 48kHz 128k audio, the `%03d.ts` segment pattern and the
`index.m3u8` target under `root/hls/<id>/<variant>/`), then extracts one
thumbnail at the 3-second mark, and commits exactly
`hls_dir = "hls/<id>"`, the thumbnail, and `processed = true` in one save
restricted to those three fields. -/
theorem c9_successful_run_characterization (env : Env) (root : String) (v : VideoRec)
    (inputPath : String) (hfile : v.videoFile = some inputPath)
    (hrun : ∀ c, env.run c = true)
    (hth : env.fileExists (outBaseDir root v.id ++ "/thumb.jpg") = true) :
    transcode_video env root v =
      { trace :=
          [Event.lockAcquire v.id,
           Event.mkdir (outBaseDir root v.id),
           Event.mkdir (outBaseDir root v.id ++ "/" ++ "360p"),
           Event.subprocess (ffmpegCmd inputPath 360 "800k" (outBaseDir root v.id ++ "/" ++ "360p")),
           Event.mkdir (outBaseDir root v.id ++ "/" ++ "720p"),
           Event.subprocess (ffmpegCmd inputPath 720 "2500k" (outBaseDir root v.id ++ "/" ++ "720p")),
           Event.mkdir (outBaseDir root v.id ++ "/" ++ "1080p"),
           Event.subprocess (ffmpegCmd inputPath 1080 "4500k" (outBaseDir root v.id ++ "/" ++ "1080p")),
           Event.subprocess (thumbCmd inputPath (outBaseDir root v.id)),
           Event.save
             { v with hls_dir := "hls/" ++ toString v.id,
                      thumbnail := some ("thumb_" ++ toString v.id ++ ".jpg"),
                      processed := true }
             ["hls_dir", "thumbnail", "processed"],
           Event.lockRelease v.id],
        dbRec := { v with hls_dir := "hls/" ++ toString v.id,
                          thumbnail := some ("thumb_" ++ toString v.id ++ ".jpg"),
                          processed := true },
        outcome := Outcome.ok } := by
  simp [transcode_video, transcodeBody, afterLadder, hfile, runLadder, variants, hrun, completedRec, hth]

/-- Claim C9 witness: the successful-run characterization evaluated at a
concrete record and an all-succeeding environment. -/
theorem c9_success_witness :
    (transcode_video envAll "/media" sampleVideo).dbRec =
      { id := 1, videoFile := some "/media/videos/original/a.mp4",
        thumbnail := some "thumb_1.jpg", hls_dir := "hls/1", processed := true } ∧
    (transcode_video envAll "/media" sampleVideo).outcome = Outcome.ok := by
  have h := c9_successful_run_characterization envAll "/media" sampleVideo
    "/media/videos/original/a.mp4" rfl (fun c => rfl) rfl
  rw [h]
  exact ⟨by decide, rfl⟩

/-! ## Trace-shape lemmas for the pipeline -/

lemma runLadder_mem (env : Env) (inputPath outBase : String) :
    ∀ (l : List (String × Nat × String)) (evs : List Event) (e : Event),
      e ∈ (runLadder env inputPath outBase l evs).1 →
      e ∈ evs ∨ ∃ t, t ∈ l ∧
        (e = Event.mkdir (outBase ++ "/" ++ t.1) ∨
         e = Event.subprocess (ffmpegCmd inputPath t.2.1 t.2.2 (outBase ++ "/" ++ t.1))) := by
  intro l
  induction l with
  | nil =>
    intro evs e h
    simp only [runLadder] at h
    exact Or.inl h
  | cons hd tl ih =>
    intro evs e h
    obtain ⟨res, hgt, vb⟩ := hd
    simp only [runLadder] at h
    split at h
    · rcases ih _ e h with h1 | ⟨t, ht, hp⟩
      · rcases List.mem_append.mp h1 with h2 | h2
        · exact Or.inl h2
        · simp only [List.mem_cons, List.not_mem_nil, or_false] at h2
          exact Or.inr ⟨(res, hgt, vb), List.mem_cons_self _ _, h2⟩
      · exact Or.inr ⟨t, List.mem_cons_of_mem _ ht, hp⟩
    · rcases List.mem_append.mp h with h2 | h2
      · exact Or.inl h2
      · simp only [List.mem_cons, List.not_mem_nil, or_false] at h2
        exact Or.inr ⟨(res, hgt, vb), List.mem_cons_self _ _, h2⟩

lemma transcodeBody_mem (env : Env) (root : String) (v : VideoRec) (e : Event)
    (h : e ∈ (transcodeBody env root v).1) :
    (∃ p, e = Event.mkdir p ∧
      (p = outBaseDir root v.id ∨
       p = outBaseDir root v.id ++ "/" ++ "360p" ∨
       p = outBaseDir root v.id ++ "/" ++ "720p" ∨
       p = outBaseDir root v.id ++ "/" ++ "1080p")) ∨
    (∃ c, e = Event.subprocess c) ∨
    (∃ r fl, e = Event.save r fl) := by
  cases hf : v.videoFile with
  | none =>
    have hb : transcodeBody env root v = ([], v, Outcome.ok) := by
      unfold transcodeBody; rw [hf]
    rw [hb] at h
    exact absurd h (by simp)
  | some inputPath =>
    have hb : transcodeBody env root v =
        afterLadder env root v inputPath
          (runLadder env inputPath (outBaseDir root v.id) variants
            [Event.mkdir (outBaseDir root v.id)]) := by
      unfold transcodeBody; rw [hf]
    rw [hb] at h
    have hevs : ∀ evs : List Event,
        (runLadder env inputPath (outBaseDir root v.id) variants
          [Event.mkdir (outBaseDir root v.id)]).1 = evs →
        e ∈ evs →
        (∃ p, e = Event.mkdir p ∧
          (p = outBaseDir root v.id ∨
           p = outBaseDir root v.id ++ "/" ++ "360p" ∨
           p = outBaseDir root v.id ++ "/" ++ "720p" ∨
           p = outBaseDir root v.id ++ "/" ++ "1080p")) ∨
        (∃ c, e = Event.subprocess c) ∨
        (∃ r fl, e = Event.save r fl) := by
      intro evs heq hin
      rcases runLadder_mem env inputPath (outBaseDir root v.id) variants
          [Event.mkdir (outBaseDir root v.id)] e (by rw [heq]; exact hin) with h1 | ⟨t, ht, hp⟩
      · simp only [List.mem_cons, List.not_mem_nil, or_false] at h1
        exact Or.inl ⟨outBaseDir root v.id, h1, Or.inl rfl⟩
      · simp only [variants, List.mem_cons, List.not_mem_nil, or_false] at ht
        rcases hp with hp | hp
        · rcases ht with ht | ht | ht <;> subst ht <;>
            exact Or.inl ⟨_, hp, by simp⟩
        · exact Or.inr (Or.inl ⟨_, hp⟩)
    rcases hL : runLadder env inputPath (outBaseDir root v.id) variants
        [Event.mkdir (outBaseDir root v.id)] with ⟨evs, ores⟩
    rw [hL] at h
    cases ores with
    | some cmd =>
      have h2 : e ∈ evs := h
      exact hevs evs (by rw [hL]) h2
    | none =>
      simp only [afterLadder] at h
      split at h
      · rcases List.mem_append.mp h with h2 | h2
        · exact hevs evs (by rw [hL]) h2
        · simp only [List.mem_cons, List.not_mem_nil, or_false] at h2
          rcases h2 with h2 | h2
          · exact Or.inr (Or.inl ⟨_, h2⟩)
          · exact Or.inr (Or.inr ⟨_, _, h2⟩)
      · rcases List.mem_append.mp h with h2 | h2
        · exact hevs evs (by rw [hL]) h2
        · simp only [List.mem_cons, List.not_mem_nil, or_false] at h2
          exact Or.inr (Or.inl ⟨_, h2⟩)

/-- Claim C8: quality aliasing — `safe_hls_path` treats "480p" and "360p"
identically for every asset id and filename, an unmapped label like
"240p" always fails with NotFound, and the pipeline only ever creates the
asset base directory and the 360p/720p/1080p variant directories — never
a 480p one. -/
theorem c8_alias_equivalence :
    (∀ root videoId f, safe_hls_path root videoId "480p" f = safe_hls_path root videoId "360p" f) ∧
    (∀ root videoId f, safe_hls_path root videoId "240p" f = none) ∧
    (∀ (env : Env) (root : String) (v : VideoRec) (p : String),
      Event.mkdir p ∈ (transcode_video env root v).trace →
      p = outBaseDir root v.id ∨
      p = outBaseDir root v.id ++ "/" ++ "360p" ∨
      p = outBaseDir root v.id ++ "/" ++ "720p" ∨
      p = outBaseDir root v.id ++ "/" ++ "1080p") ∧
    (∀ (env : Env) (root : String) (v : VideoRec),
      Event.mkdir (outBaseDir root v.id ++ "/" ++ "480p") ∉ (transcode_video env root v).trace) := by
  have hmk : ∀ (env : Env) (root : String) (v : VideoRec) (p : String),
      Event.mkdir p ∈ (transcode_video env root v).trace →
      p = outBaseDir root v.id ∨
      p = outBaseDir root v.id ++ "/" ++ "360p" ∨
      p = outBaseDir root v.id ++ "/" ++ "720p" ∨
      p = outBaseDir root v.id ++ "/" ++ "1080p" := by
    intro env root v p hp
    have hp2 : Event.mkdir p ∈
        Event.lockAcquire v.id :: (transcodeBody env root v).1 ++ [Event.lockRelease v.id] := hp
    rcases List.mem_cons.mp hp2 with hp3 | hp3
    · exact absurd hp3 (by simp)
    · rcases List.mem_append.mp hp3 with h2 | h2
      · rcases transcodeBody_mem env root v _ h2 with ⟨q, hq, hloc⟩ | ⟨c, hc⟩ | ⟨r, fl, hr⟩
        · injection hq with hq2
          rw [hq2]
          exact hloc
        · exact absurd hc (by simp)
        · exact absurd hr (by simp)
      · simp only [List.mem_cons, List.not_mem_nil, or_false] at h2
        exact absurd h2 (by simp)
  refine ⟨fun root videoId f => rfl, fun root videoId f => rfl, hmk, ?_⟩
  intro env root v hin
  rcases hmk env root v _ hin with h | h | h | h
  · have h2 : outBaseDir root v.id = outBaseDir root v.id ++ ("/" ++ "480p") := by
      rw [← str_append_assoc]
      exact h.symm
    exact str_ne_append (by decide) h2
  all_goals {
    rw [str_append_assoc, str_append_assoc] at h
    exact absurd (str_append_left_cancel h) (by decide)
  }

/-- Claim C8 witness: the trace of a concrete fully successful run
contains a mkdir of the asset base directory, and the characterization
places it among the allowed directories. -/
theorem c8_alias_witness :
    "/media/hls/1" = outBaseDir "/media" sampleVideo.id ∨
    "/media/hls/1" = outBaseDir "/media" sampleVideo.id ++ "/" ++ "360p" ∨
    "/media/hls/1" = outBaseDir "/media" sampleVideo.id ++ "/" ++ "720p" ∨
    "/media/hls/1" = outBaseDir "/media" sampleVideo.id ++ "/" ++ "1080p" :=
  c8_alias_equivalence.2.2.1 envAll "/media" sampleVideo "/media/hls/1" (by decide)

/-- The claim C10 denies this property: some lock acquisition precedes a
subprocess invocation which precedes the matching lock release in the
trace — i.e. a metadata-store lock is held across a blocking call. -/
def lockHeldAcrossSubprocess (tr : List Event) : Prop :=
  ∃ i j k : Nat, i < j ∧ j < k ∧
    (∃ a, tr.get? i = some (Event.lockAcquire a)) ∧
    (∃ c, tr.get? j = some (Event.subprocess c)) ∧
    (∃ b, tr.get? k = some (Event.lockRelease b))

/-- Claim C10 counterexample: in a fully successful concrete run the
`select_for_update` row lock is acquired at trace position 0, an encoder
subprocess runs at position 3, and the lock is only released at position
10 when the transaction commits — the lock IS held across the blocking
encoder call, refuting the claim. -/
theorem c10_lock_held_across_encoder :
    lockHeldAcrossSubprocess ((transcode_video envAll "/media" sampleVideo).trace) :=
  ⟨0, 3, 10, by decide, by decide, ⟨1, by decide⟩,
   ⟨ffmpegCmd "/media/videos/original/a.mp4" 360 "800k" "/media/hls/1/360p", by decide⟩,
   ⟨1, by decide⟩⟩

/-- Claim C10 (amended): `transcode_video` takes the record-level lock
first and releases it only at transaction end — every event of the body,
including every encoder subprocess invocation, happens while the lock is
held; the final metadata update is atomic only because it sits inside
this same transaction. -/
theorem c10_lock_wraps_run (env : Env) (root : String) (v : VideoRec) :
    (transcode_video env root v).trace =
      Event.lockAcquire v.id :: (transcodeBody env root v).1 ++ [Event.lockRelease v.id] ∧
    ∀ e ∈ (transcodeBody env root v).1,
      (∀ a, e ≠ Event.lockAcquire a) ∧ (∀ b, e ≠ Event.lockRelease b) := by
  refine ⟨rfl, fun e he => ?_⟩
  rcases transcodeBody_mem env root v e he with ⟨p, hp, _⟩ | ⟨c, hc⟩ | ⟨r, fl, hr⟩ <;>
    subst_vars <;>
    exact ⟨fun a h => (nomatch h), fun b h => (nomatch h)⟩

/-- Claim C10 witness: the amended theorem applied to a concrete body
event (the base-directory mkdir of a successful run). -/
theorem c10_lock_wraps_witness :
    Event.mkdir "/media/hls/1" ≠ Event.lockAcquire 1 ∧
    Event.mkdir "/media/hls/1" ≠ Event.lockRelease 1 :=
  ⟨((c10_lock_wraps_run envAll "/media" sampleVideo).2 (Event.mkdir "/media/hls/1")
      (by decide)).1 1,
   ((c10_lock_wraps_run envAll "/media" sampleVideo).2 (Event.mkdir "/media/hls/1")
      (by decide)).2 1⟩

end Videoflix
